import Mathlib

set_option maxRecDepth 100000

/-!
Verification development for the real-time R-peak detection engine
(simplified Pan-Tompkins pipeline with a streaming coordinator).

The TypeScript source is embedded shallowly: JS `number` values are
modelled as `ℚ` (no NaN/Infinity arise on the inputs the theorems
consider; where JS would produce NaN from a zero divisor the checked
variants below signal `none`), JS arrays as `List`, and `arr[i] || 0`
as `List.getD i 0` (the two agree except on NaN, and `0 || 0 = 0`
coincides with the default).  `Math.floor` is `ratFloor` (= `Int.floor`).
`Math.max(0, n - k)` on naturals is truncated subtraction.
-/

/-- Sample = `{ time, value }` as fed to the engine. -/
structure Sample where
  time : ℚ
  value : ℚ
deriving DecidableEq, Repr

/-- Peak = `{ time, value, index }` produced by the peak picker. -/
structure Peak where
  time : ℚ
  value : ℚ
  index : ℕ
deriving DecidableEq, Repr

/-- Result record `{ peaks, rrIntervals, instantHR, avgHR }`. -/
structure PeakDetectionResult where
  peaks : List Peak
  rrIntervals : List ℚ
  instantHR : ℚ
  avgHR : ℚ
deriving DecidableEq, Repr

/-- Return record of `calculateMetrics`. -/
structure HRMetrics where
  rrIntervals : List ℚ
  instantHR : ℚ
  avgHR : ℚ
deriving DecidableEq, Repr

/-- Kernel-computable `Math.floor` on rationals; equal to `⌊q⌋` by
`Rat.floor_def`. -/
def ratFloor (q : ℚ) : ℤ :=
  q.num / q.den

/-- Integer range `[lo, hi]` (empty when `hi < lo`), mirroring a JS
`for (let j = lo; j <= hi; j++)` loop. -/
def intRange (lo hi : ℤ) : List ℤ :=
  (List.range (hi + 1 - lo).toNat).map (fun (k : ℕ) => lo + (k : ℤ))

/-- Band-pass stage: subtract a symmetric moving average of half-width
`Math.floor(sampleRate / 15)`, clamped to the array bounds.  The two
dead locals `lowCut`/`highCut` and the unused default parameter of the
source are omitted. -/
def bandpassFilter (data : List ℚ) (sampleRate : ℚ) : List ℚ :=
  let windowSize : ℤ := ratFloor (sampleRate / 15)
  (List.range data.length).map (fun (i : ℕ) =>
    let lo : ℤ := max 0 ((i : ℤ) - windowSize)
    let hi : ℤ := min ((data.length : ℤ) - 1) ((i : ℤ) + windowSize)
    let idxs := intRange lo hi
    data.getD i 0 - (idxs.map (fun j => data.getD j.toNat 0)).sum / (idxs.length : ℚ))

/-- Five-point derivative; output entry `k` corresponds to source index
`i = k + 2` and the array shrinks by 4. -/
def derivative (data : List ℚ) : List ℚ :=
  (List.range (data.length - 4)).map (fun (k : ℕ) =>
    (-(data.getD k 0) - 2 * data.getD (k + 1) 0
      + 2 * data.getD (k + 3) 0 + data.getD (k + 4) 0) / 8)

/-- Squaring stage. -/
def squaring (data : List ℚ) : List ℚ :=
  data.map (fun x => x * x)

/-- Moving-window integration over a trailing window of `windowSize`
samples (window truncated near the start); the divisor is the JS
expression `i - start + 1`. -/
def movingWindowIntegration (data : List ℚ) (windowSize : ℤ) : List ℚ :=
  (List.range data.length).map (fun (i : ℕ) =>
    let start : ℤ := max 0 ((i : ℤ) - windowSize + 1)
    let idxs := intRange start (i : ℤ)
    (idxs.map (fun j => data.getD j.toNat 0)).sum / (((i : ℤ) - start + 1 : ℤ) : ℚ))

/-- Refractory period in samples: `Math.floor(0.25 * sampleRate)`. -/
def refractoryPeriod (sampleRate : ℚ) : ℤ :=
  ratFloor ((0.25 : ℚ) * sampleRate)

/-- Descending insertion of one element (keeps elements `≥ a` in front),
used to model the JS `sort((a, b) => b - a)`. -/
def insertDesc (a : ℚ) : List ℚ → List ℚ
  | [] => [a]
  | b :: l => if a ≤ b then b :: insertDesc a l else a :: b :: l

/-- Descending sort, extensionally the JS `[...xs].sort((a, b) => b - a)`
(on rationals any two descending-sorted rearrangements are equal as
lists). -/
def sortDesc (l : List ℚ) : List ℚ :=
  l.foldr insertDesc []

/-- Mutable loop state of `findPeaks`: the peaks pushed so far, the scan
index of the last accepted candidate, and the adaptive threshold. -/
structure FPState where
  peaks : List Peak
  lastPeakIndex : ℤ
  threshold : ℚ
deriving DecidableEq, Repr

/-- Search of the original signal in the window `[i - 8, i + 8]`
(clamped to the array bounds) for the true R-peak: returns the JS
loop's `(maxIdx, peakVal)`, starting from `(i, originalSignal[i] || 0)`
and taking the earliest strict improvement. -/
def remapPeak (originalSignal : List ℚ) (i : ℕ) : ℕ × ℚ :=
  let searchStart : ℕ := i - 8
  let searchEnd : ℤ := min ((originalSignal.length : ℤ) - 1) ((i : ℤ) + 8)
  let js := List.range' searchStart (searchEnd + 1 - (searchStart : ℤ)).toNat
  js.foldl
    (fun (mv : ℕ × ℚ) j =>
      if j < originalSignal.length ∧ mv.2 < originalSignal.getD j 0 then
        (j, originalSignal.getD j 0)
      else mv)
    (i, originalSignal.getD i 0)

/-- One iteration of the `findPeaks` scan loop at scan index `i`. -/
def fpStep (processedSignal originalSignal times : List ℚ)
    (refractory : ℤ) (minThreshold : ℚ) (s : FPState) (i : ℕ) : FPState :=
  let isLocalMax :=
    processedSignal.getD (i - 1) 0 < processedSignal.getD i 0 ∧
    processedSignal.getD (i - 2) 0 < processedSignal.getD i 0 ∧
    processedSignal.getD (i + 1) 0 < processedSignal.getD i 0 ∧
    processedSignal.getD (i + 2) 0 < processedSignal.getD i 0
  if isLocalMax ∧ s.threshold < processedSignal.getD i 0 ∧
      refractory ≤ (i : ℤ) - s.lastPeakIndex then
    let mv := remapPeak originalSignal i
    if (0.4 : ℚ) < mv.2 then
      { peaks := s.peaks ++ [{ time := times.getD mv.1 0, value := mv.2, index := mv.1 }]
        lastPeakIndex := (i : ℤ)
        threshold := max (0.3 * processedSignal.getD i 0 + 0.7 * s.threshold) minThreshold }
    else s
  else s

/-- Adaptive-threshold peak picker over the envelope signal; the unused
`minPeakDistance` local of the source is omitted. -/
def findPeaks (processedSignal originalSignal times : List ℚ)
    (sampleRate : ℚ) : List Peak :=
  let refractory := refractoryPeriod sampleRate
  if processedSignal.length < 10 then [] else
  let sortedSignal := sortDesc processedSignal
  let percentile95 := sortedSignal.getD (ratFloor ((sortedSignal.length : ℚ) * 0.05)).toNat 0
  let maxVal := sortedSignal.getD 0 0
  let threshold := max (0.4 * maxVal) (0.5 * percentile95)
  let minThreshold := 0.1 * maxVal
  ((List.range' 2 (processedSignal.length - 4)).foldl
    (fpStep processedSignal originalSignal times refractory minThreshold)
    { peaks := [], lastPeakIndex := -refractory, threshold := threshold }).peaks

/-- RR intervals of consecutive peaks, keeping only values strictly
inside `(0.3, 2.0)` seconds. -/
def rrIntervalsOf (peaks : List Peak) : List ℚ :=
  ((peaks.zip peaks.tail).map (fun pq => pq.2.time - pq.1.time)).filter
    (fun rr => decide ((0.3 : ℚ) < rr ∧ rr < 2))

/-- RR intervals and heart rates from the detected peaks. -/
def calculateMetrics (peaks : List Peak) : HRMetrics :=
  let rrIntervals := rrIntervalsOf peaks
  if rrIntervals.isEmpty then { rrIntervals := [], instantHR := 0, avgHR := 0 } else
  let instantHR := 60 / rrIntervals.getLastD 0
  let avgRR := rrIntervals.sum / (rrIntervals.length : ℚ)
  { rrIntervals := rrIntervals, instantHR := instantHR, avgHR := 60 / avgRR }

/-- Main batch detection: the four conditioning stages, peak picking,
then metrics. -/
def detectPeaks (data : List Sample) (sampleRate : ℚ) : PeakDetectionResult :=
  if data.length < 50 then
    { peaks := [], rrIntervals := [], instantHR := 0, avgHR := 0 }
  else
    let values := data.map Sample.value
    let times := data.map Sample.time
    let filtered := bandpassFilter values sampleRate
    let differentiated := derivative filtered
    let squared := squaring differentiated
    let integrated := movingWindowIntegration squared (ratFloor ((0.15 : ℚ) * sampleRate))
    let peaks := findPeaks integrated values times sampleRate
    let m := calculateMetrics peaks
    { peaks := peaks, rrIntervals := m.rrIntervals
      instantHR := m.instantHR, avgHR := m.avgHR }

/-- Mutable state of `RealtimePeakDetector`: rolling sample buffer,
accumulated peak list and the processed-samples watermark. -/
structure RTState where
  buffer : List Sample
  detectedPeaks : List Peak
  lastProcessedIndex : ℕ
deriving DecidableEq, Repr

/-- State of a freshly constructed detector. -/
def initialState : RTState :=
  { buffer := [], detectedPeaks := [], lastProcessedIndex := 0 }

/-- Trimming phase of `addData`: append the new samples, evict the
oldest excess samples when the buffer exceeds
`sampleRate * bufferSeconds`, clamp the watermark at 0 (truncated
subtraction) and drop peaks older than the earliest remaining sample. -/
def pushTrim (sampleRate bufferSeconds : ℕ) (s : RTState)
    (newData : List Sample) : RTState :=
  let bufferSize := sampleRate * bufferSeconds
  let buffer := s.buffer ++ newData
  if bufferSize < buffer.length then
    let removeCount := buffer.length - bufferSize
    let buffer2 := buffer.drop removeCount
    let minTime := (buffer2.head?.map Sample.time).getD 0
    { buffer := buffer2
      detectedPeaks := s.detectedPeaks.filter (fun p => decide (minTime ≤ p.time))
      lastProcessedIndex := s.lastProcessedIndex - removeCount }
  else
    { buffer := buffer, detectedPeaks := s.detectedPeaks
      lastProcessedIndex := s.lastProcessedIndex }

/-- Streaming `addData`: trim, then either return metrics recomputed
from the accumulated peaks (fewer than 50 unprocessed samples) or rerun
the batch pipeline over the whole buffer and merge the peaks whose time
strictly exceeds the last accumulated peak time. -/
def addData (sampleRate bufferSeconds : ℕ) (s : RTState)
    (newData : List Sample) : PeakDetectionResult × RTState :=
  let s1 := pushTrim sampleRate bufferSeconds s newData
  if s1.buffer.length - s1.lastProcessedIndex < 50 then
    let m := calculateMetrics s1.detectedPeaks
    ({ peaks := s1.detectedPeaks, rrIntervals := m.rrIntervals
       instantHR := m.instantHR, avgHR := m.avgHR }, s1)
  else
    let result := detectPeaks s1.buffer (sampleRate : ℚ)
    let lastPeakTime := (s1.detectedPeaks.getLast?.map Peak.time).getD 0
    let newPeaks := result.peaks.filter (fun p => decide (lastPeakTime < p.time))
    let peaks2 := s1.detectedPeaks ++ newPeaks
    ({ peaks := peaks2, rrIntervals := result.rrIntervals
       instantHR := result.instantHR, avgHR := result.avgHR },
     { buffer := s1.buffer, detectedPeaks := peaks2
       lastProcessedIndex := s1.buffer.length })

/-- Streaming `reset`: back to the freshly constructed state. -/
def reset (_s : RTState) : RTState :=
  initialState

/-- Streaming `getPeaks`. -/
def getPeaks (s : RTState) : List Peak :=
  s.detectedPeaks

/-- Fold a list of chunks through `addData`, starting from a fresh
detector, and return the final state. -/
def runAddData (sampleRate bufferSeconds : ℕ) (chunks : List (List Sample)) : RTState :=
  chunks.foldl (fun s c => (addData sampleRate bufferSeconds s c).2) initialState

/-- Division that signals a zero divisor (where JS would produce
NaN/Infinity) instead of Lean's `x / 0 = 0` convention. -/
def divQ? (a b : ℚ) : Option ℚ :=
  if b = 0 then none else some (a / b)

/-- Map a fallible function over a list, failing if any element fails. -/
def optMap {α β : Type} (f : α → Option β) : List α → Option (List β)
  | [] => some []
  | a :: l =>
    match f a, optMap f l with
    | some b, some bs => some (b :: bs)
    | _, _ => none

/-- Band-pass stage with its division checked. -/
def bandpassFilterChecked (data : List ℚ) (sampleRate : ℚ) : Option (List ℚ) :=
  let windowSize : ℤ := ratFloor (sampleRate / 15)
  optMap (fun (i : ℕ) =>
    let lo : ℤ := max 0 ((i : ℤ) - windowSize)
    let hi : ℤ := min ((data.length : ℤ) - 1) ((i : ℤ) + windowSize)
    let idxs := intRange lo hi
    (divQ? ((idxs.map (fun j => data.getD j.toNat 0)).sum) (idxs.length : ℚ)).map
      (fun m => data.getD i 0 - m))
    (List.range data.length)

/-- Derivative stage with its (constant) division checked. -/
def derivativeChecked (data : List ℚ) : Option (List ℚ) :=
  optMap (fun (k : ℕ) =>
    divQ? (-(data.getD k 0) - 2 * data.getD (k + 1) 0
      + 2 * data.getD (k + 3) 0 + data.getD (k + 4) 0) 8)
    (List.range (data.length - 4))

/-- Moving-window integration with its division checked. -/
def movingWindowIntegrationChecked (data : List ℚ) (windowSize : ℤ) : Option (List ℚ) :=
  optMap (fun (i : ℕ) =>
    let start : ℤ := max 0 ((i : ℤ) - windowSize + 1)
    let idxs := intRange start (i : ℤ)
    divQ? ((idxs.map (fun j => data.getD j.toNat 0)).sum)
      ((((i : ℤ) - start + 1 : ℤ)) : ℚ))
    (List.range data.length)

/-- Metrics with the three heart-rate divisions checked. -/
def calculateMetricsChecked (peaks : List Peak) : Option HRMetrics :=
  let rrIntervals := rrIntervalsOf peaks
  if rrIntervals.isEmpty then
    some { rrIntervals := [], instantHR := 0, avgHR := 0 }
  else
    (divQ? 60 (rrIntervals.getLastD 0)).bind (fun instantHR =>
    (divQ? rrIntervals.sum (rrIntervals.length : ℚ)).bind (fun avgRR =>
    (divQ? 60 avgRR).map (fun avgHR =>
      { rrIntervals := rrIntervals, instantHR := instantHR, avgHR := avgHR })))

/-- Batch detection with every division in the pipeline checked
(`findPeaks` and `squaring` contain no division). -/
def detectPeaksChecked (data : List Sample) (sampleRate : ℚ) : Option PeakDetectionResult :=
  if data.length < 50 then
    some { peaks := [], rrIntervals := [], instantHR := 0, avgHR := 0 }
  else
    let values := data.map Sample.value
    let times := data.map Sample.time
    (bandpassFilterChecked values sampleRate).bind (fun filtered =>
    (derivativeChecked filtered).bind (fun differentiated =>
    let squared := squaring differentiated
    (movingWindowIntegrationChecked squared (ratFloor ((0.15 : ℚ) * sampleRate))).bind
      (fun integrated =>
    let peaks := findPeaks integrated values times sampleRate
    (calculateMetricsChecked peaks).map (fun m =>
      { peaks := peaks, rrIntervals := m.rrIntervals
        instantHR := m.instantHR, avgHR := m.avgHR }))))

/-- Streaming `addData` with every division checked
(`pushTrim` contains no division). -/
def addDataChecked (sampleRate bufferSeconds : ℕ) (s : RTState)
    (newData : List Sample) : Option (PeakDetectionResult × RTState) :=
  let s1 := pushTrim sampleRate bufferSeconds s newData
  if s1.buffer.length - s1.lastProcessedIndex < 50 then
    (calculateMetricsChecked s1.detectedPeaks).map (fun m =>
      ({ peaks := s1.detectedPeaks, rrIntervals := m.rrIntervals
         instantHR := m.instantHR, avgHR := m.avgHR }, s1))
  else
    (detectPeaksChecked s1.buffer (sampleRate : ℚ)).map (fun result =>
      let lastPeakTime := (s1.detectedPeaks.getLast?.map Peak.time).getD 0
      let newPeaks := result.peaks.filter (fun p => decide (lastPeakTime < p.time))
      let peaks2 := s1.detectedPeaks ++ newPeaks
      ({ peaks := peaks2, rrIntervals := result.rrIntervals
         instantHR := result.instantHR, avgHR := result.avgHR },
       { buffer := s1.buffer, detectedPeaks := peaks2
         lastProcessedIndex := s1.buffer.length }))

/-- Index-separation relation between two reported peaks: the later
one's remapped index is at least `refractory - 16` beyond the earlier
one's (the scan indices are `refractory` apart and each remap moves by
at most 8). -/
def peakGap (refractory : ℤ) (p q : Peak) : Prop :=
  (p.index : ℤ) + (refractory - 16) ≤ (q.index : ℤ)

/-- Invariant carried through the `findPeaks` scan: consecutive reported
peaks are `peakGap`-separated, the last reported peak's index is within
8 of the last accepted scan index, and every reported peak carries an
in-range index whose time is looked up from `times`. -/
def fpInv (originalSignal times : List ℚ) (refractory : ℤ) (s : FPState) : Prop :=
  List.Chain' (peakGap refractory) s.peaks ∧
  (∀ lp, s.peaks.getLast? = some lp → (lp.index : ℤ) ≤ s.lastPeakIndex + 8) ∧
  (∀ p ∈ s.peaks, p.index < originalSignal.length ∧ p.time = times.getD p.index 0)

/-- Stream of 50 samples at millisecond time spacing with unit spikes at
indices 20 and 30; at `sampleRate = 20` the pipeline reports both spikes
as peaks only 10 ms apart. -/
def exStreamData : List Sample :=
  (List.range 50).map (fun k =>
    { time := ((k : ℚ) + 1) / 1000, value := if k = 20 ∨ k = 30 then 1 else 0 })

/-- Values of a 50-sample stream whose two reported peaks come out in
reversed time order at `sampleRate = 20` (the second candidate's ±8
remap window reaches an equal maximum left of the first candidate's
reported index). -/
def exMonoVals : List ℚ :=
  [0, 0, 0, 0, 0, 0, 0, 0, 0, 0, 0, 0, 0, 0, 0,
   1/2, 1/2, 1/2, 0, 4/5, 1, 4/5, 1, 0,
   -1/2, 4/5, 0, 0, 4/5, 1/2, -4/5, -1/2, -4/5, 1/2,
   0, 0, 0, 0, 0, 0, 0, 0, 0, 0, 0, 0, 0, 0, 0, 0]

/-- Sample stream built from `exMonoVals` with strictly increasing
times. -/
def exMonoData : List Sample :=
  (List.range 50).map (fun (k : ℕ) =>
    { time := ((k : ℚ) + 1) / 1000, value := exMonoVals.getD k 0 })

/-- Flat low-amplitude stream (50 samples of 0.01 ≤ 0.4) at 250 Hz. -/
def constData : List Sample :=
  (List.range 50).map (fun (k : ℕ) =>
    { time := (k : ℚ) / 250, value := 1/100 })

/-- A 30-sample stream (below the 50-sample gate). -/
def shortData : List Sample :=
  (List.range 30).map (fun (k : ℕ) =>
    { time := (k : ℚ) / 250, value := 1 })

/-- Two peaks one second apart (a valid RR interval). -/
def pairPeaks : List Peak :=
  [{ time := 0, value := 1, index := 0 }, { time := 1, value := 1, index := 1 }]

/-- Small state for exercising the trim branch: two buffered samples,
watermark 1, fed one more sample with `bufferSize = 1`. -/
def exTrimState : RTState :=
  { buffer := [{ time := 1, value := 0 }, { time := 2, value := 0 }]
    detectedPeaks := [], lastProcessedIndex := 1 }

/-- Bridge from the executable floor to Mathlib's `Int.floor`. -/
lemma ratFloor_eq_floor (q : ℚ) : ratFloor q = ⌊q⌋ :=
  Rat.floor_def.symm

/-- Membership in the filtered RR list forces the open range. -/
lemma mem_rrIntervalsOf {peaks : List Peak} {rr : ℚ}
    (h : rr ∈ rrIntervalsOf peaks) : (0.3 : ℚ) < rr ∧ rr < 2 := by
  unfold rrIntervalsOf at h
  exact of_decide_eq_true (List.mem_filter.mp h).2

/-- The RR list of `calculateMetrics` is exactly the filtered list of
consecutive differences (also in the empty case). -/
lemma calculateMetrics_rrIntervals (peaks : List Peak) :
    (calculateMetrics peaks).rrIntervals = rrIntervalsOf peaks := by
  unfold calculateMetrics
  dsimp only
  split
  · next hemp => exact (List.isEmpty_iff.mp hemp).symm
  · rfl

/-- An empty RR list yields the all-zero metrics record. -/
lemma calculateMetrics_of_empty {peaks : List Peak}
    (h : rrIntervalsOf peaks = []) :
    calculateMetrics peaks = { rrIntervals := [], instantHR := 0, avgHR := 0 } := by
  unfold calculateMetrics
  dsimp only
  rw [if_pos (List.isEmpty_iff.mpr h)]

/-- C4: fewer than 50 samples yields exactly the all-empty result,
without running the pipeline. -/
theorem detectPeaks_insufficient (data : List Sample) (sampleRate : ℚ)
    (h : data.length < 50) :
    detectPeaks data sampleRate =
      { peaks := [], rrIntervals := [], instantHR := 0, avgHR := 0 } := by
  unfold detectPeaks
  rw [if_pos h]

/-- Witness for `detectPeaks_insufficient` at a concrete 30-sample stream. -/
theorem detectPeaks_insufficient_witness :
    shortData.length < 50 ∧
    detectPeaks shortData 250 =
      { peaks := [], rrIntervals := [], instantHR := 0, avgHR := 0 } :=
  ⟨by with_unfolding_all decide,
   detectPeaks_insufficient shortData 250 (by with_unfolding_all decide)⟩

/-- C9: the derivative returns `N - 4` entries, entry `i - 2` (for
source index `i` in `[2, N-3]`) being the five-point formula, and the
empty list for `N < 4`. -/
theorem derivative_spec (x : List ℚ) :
    (4 ≤ x.length →
      (derivative x).length = x.length - 4 ∧
      ∀ i : ℕ, 2 ≤ i → i + 2 < x.length →
        (derivative x).getD (i - 2) 0 =
          (-(x.getD (i - 2) 0) - 2 * x.getD (i - 1) 0
            + 2 * x.getD (i + 1) 0 + x.getD (i + 2) 0) / 8) ∧
    (x.length < 4 → derivative x = []) := by
  constructor
  · intro _
    refine ⟨by simp [derivative], ?_⟩
    intro i h2 hlt
    obtain ⟨j, rfl⟩ : ∃ j, i = j + 2 := ⟨i - 2, by omega⟩
    have hj : j < (derivative x).length := by simp [derivative]; omega
    have e2 : j + 2 - 2 = j := by omega
    have e1 : j + 2 - 1 = j + 1 := by omega
    have e3 : j + 2 + 1 = j + 3 := by omega
    have e4 : j + 2 + 2 = j + 4 := by omega
    rw [e2, e1, e3, e4, List.getD_eq_getElem _ _ hj]
    simp [derivative]
  · intro h
    unfold derivative
    have : x.length - 4 = 0 := by omega
    rw [this]
    rfl

/-- Witness for `derivative_spec` at `[1, 2, 4, 8, 16]` and `i = 2`. -/
theorem derivative_spec_witness :
    (derivative ([1, 2, 4, 8, 16] : List ℚ)).getD (2 - 2) 0 =
      (-(([1, 2, 4, 8, 16] : List ℚ).getD (2 - 2) 0)
        - 2 * ([1, 2, 4, 8, 16] : List ℚ).getD (2 - 1) 0
        + 2 * ([1, 2, 4, 8, 16] : List ℚ).getD (2 + 1) 0
        + ([1, 2, 4, 8, 16] : List ℚ).getD (2 + 2) 0) / 8 :=
  ((derivative_spec [1, 2, 4, 8, 16]).1 (by simp)).2 2 (by omega) (by simp)

/-- C3: after any `addData` the buffer holds at most
`sampleRate * bufferSeconds` samples; on trimming, the oldest samples
are dropped from the front and the watermark is decremented by the
evicted count, floored at 0. -/
theorem addData_buffer_bound (sampleRate bufferSeconds : ℕ) (s : RTState)
    (newData : List Sample) :
    (addData sampleRate bufferSeconds s newData).2.buffer.length
      ≤ sampleRate * bufferSeconds ∧
    (sampleRate * bufferSeconds < (s.buffer ++ newData).length →
      (pushTrim sampleRate bufferSeconds s newData).buffer =
        (s.buffer ++ newData).drop
          ((s.buffer ++ newData).length - sampleRate * bufferSeconds) ∧
      ((pushTrim sampleRate bufferSeconds s newData).lastProcessedIndex : ℤ) =
        max 0 ((s.lastProcessedIndex : ℤ)
          - (((s.buffer ++ newData).length - sampleRate * bufferSeconds : ℕ) : ℤ))) := by
  have hpt : (pushTrim sampleRate bufferSeconds s newData).buffer.length
      ≤ sampleRate * bufferSeconds ∨
      (pushTrim sampleRate bufferSeconds s newData).buffer = s.buffer ++ newData ∧
      (s.buffer ++ newData).length ≤ sampleRate * bufferSeconds := by
    unfold pushTrim
    dsimp only
    split
    · next hlt => left; simp only [List.length_drop]; omega
    · next hge => right; exact ⟨rfl, by omega⟩
  constructor
  · have hbuf : (addData sampleRate bufferSeconds s newData).2.buffer =
        (pushTrim sampleRate bufferSeconds s newData).buffer := by
      unfold addData
      dsimp only
      split <;> rfl
    rw [hbuf]
    rcases hpt with h | ⟨heq, hle⟩
    · exact h
    · rw [heq]; exact hle
  · intro h
    unfold pushTrim
    dsimp only
    rw [if_pos h]
    dsimp only
    refine ⟨rfl, ?_⟩
    rw [max_def]
    split <;> omega

/-- Witness for `addData_buffer_bound` at a state that trims two
samples and floors the watermark. -/
theorem addData_buffer_bound_witness :
    (addData 1 1 exTrimState [({ time := 3, value := 0 } : Sample)]).2.buffer.length ≤ 1 * 1 ∧
    ((pushTrim 1 1 exTrimState [({ time := 3, value := 0 } : Sample)]).buffer =
      (exTrimState.buffer ++ [({ time := 3, value := 0 } : Sample)]).drop
        ((exTrimState.buffer ++ [({ time := 3, value := 0 } : Sample)]).length - 1 * 1) ∧
     ((pushTrim 1 1 exTrimState [({ time := 3, value := 0 } : Sample)]).lastProcessedIndex : ℤ) =
       max 0 ((exTrimState.lastProcessedIndex : ℤ)
         - (((exTrimState.buffer ++ [({ time := 3, value := 0 } : Sample)]).length - 1 * 1 : ℕ) : ℤ))) :=
  ⟨(addData_buffer_bound 1 1 exTrimState [({ time := 3, value := 0 } : Sample)]).1,
   (addData_buffer_bound 1 1 exTrimState [({ time := 3, value := 0 } : Sample)]).2
     (by with_unfolding_all decide)⟩

/-- C10: when at least 50 unprocessed samples are buffered, the returned
metrics are exactly those of the fresh batch run over the whole current
buffer (while the returned peak list is the merged accumulated list);
otherwise the result is recomputed from the accumulated peaks alone. -/
theorem addData_metrics_source (sampleRate bufferSeconds : ℕ) (s : RTState)
    (newData : List Sample) :
    (50 ≤ (pushTrim sampleRate bufferSeconds s newData).buffer.length
        - (pushTrim sampleRate bufferSeconds s newData).lastProcessedIndex →
      (addData sampleRate bufferSeconds s newData).1.rrIntervals =
        (detectPeaks (pushTrim sampleRate bufferSeconds s newData).buffer
          (sampleRate : ℚ)).rrIntervals ∧
      (addData sampleRate bufferSeconds s newData).1.instantHR =
        (detectPeaks (pushTrim sampleRate bufferSeconds s newData).buffer
          (sampleRate : ℚ)).instantHR ∧
      (addData sampleRate bufferSeconds s newData).1.avgHR =
        (detectPeaks (pushTrim sampleRate bufferSeconds s newData).buffer
          (sampleRate : ℚ)).avgHR ∧
      (addData sampleRate bufferSeconds s newData).1.peaks =
        (pushTrim sampleRate bufferSeconds s newData).detectedPeaks ++
          (detectPeaks (pushTrim sampleRate bufferSeconds s newData).buffer
            (sampleRate : ℚ)).peaks.filter
            (fun p => decide
              ((((pushTrim sampleRate bufferSeconds s newData).detectedPeaks.getLast?.map
                Peak.time).getD 0) < p.time))) ∧
    ((pushTrim sampleRate bufferSeconds s newData).buffer.length
        - (pushTrim sampleRate bufferSeconds s newData).lastProcessedIndex < 50 →
      (addData sampleRate bufferSeconds s newData).1 =
        { peaks := (pushTrim sampleRate bufferSeconds s newData).detectedPeaks
          rrIntervals := (calculateMetrics
            (pushTrim sampleRate bufferSeconds s newData).detectedPeaks).rrIntervals
          instantHR := (calculateMetrics
            (pushTrim sampleRate bufferSeconds s newData).detectedPeaks).instantHR
          avgHR := (calculateMetrics
            (pushTrim sampleRate bufferSeconds s newData).detectedPeaks).avgHR }) := by
  constructor
  · intro h
    unfold addData
    dsimp only
    rw [if_neg (by omega)]
    exact ⟨rfl, rfl, rfl, rfl⟩
  · intro h
    unfold addData
    dsimp only
    rw [if_pos h]

/-- Witness for `addData_metrics_source` at a fresh detector fed 50
samples (the detecting branch). -/
theorem addData_metrics_source_witness :
    (addData 20 5 initialState exStreamData).1.rrIntervals =
      (detectPeaks (pushTrim 20 5 initialState exStreamData).buffer (20 : ℚ)).rrIntervals ∧
    (addData 20 5 initialState exStreamData).1.instantHR =
      (detectPeaks (pushTrim 20 5 initialState exStreamData).buffer (20 : ℚ)).instantHR ∧
    (addData 20 5 initialState exStreamData).1.avgHR =
      (detectPeaks (pushTrim 20 5 initialState exStreamData).buffer (20 : ℚ)).avgHR ∧
    (addData 20 5 initialState exStreamData).1.peaks =
      (pushTrim 20 5 initialState exStreamData).detectedPeaks ++
        (detectPeaks (pushTrim 20 5 initialState exStreamData).buffer (20 : ℚ)).peaks.filter
          (fun p => decide
            ((((pushTrim 20 5 initialState exStreamData).detectedPeaks.getLast?.map
              Peak.time).getD 0) < p.time)) :=
  (addData_metrics_source 20 5 initialState exStreamData).1
    (by with_unfolding_all decide)

/-- C5: every RR entry of any metrics computation (hence of any
`detectPeaks` or `addData` result) lies strictly in `(0.3, 2.0)`; the
RR list is the filtered consecutive differences of the untouched peak
list; and with no valid interval the metrics are all zero. -/
theorem rrIntervals_range :
    (∀ peaks : List Peak, ∀ rr ∈ (calculateMetrics peaks).rrIntervals,
      (0.3 : ℚ) < rr ∧ rr < 2) ∧
    (∀ peaks : List Peak, (calculateMetrics peaks).rrIntervals = [] →
      (calculateMetrics peaks).instantHR = 0 ∧ (calculateMetrics peaks).avgHR = 0) ∧
    (∀ (data : List Sample) (sampleRate : ℚ),
      (detectPeaks data sampleRate).rrIntervals =
        rrIntervalsOf (detectPeaks data sampleRate).peaks) ∧
    (∀ (data : List Sample) (sampleRate : ℚ),
      ∀ rr ∈ (detectPeaks data sampleRate).rrIntervals, (0.3 : ℚ) < rr ∧ rr < 2) ∧
    (∀ (sampleRate bufferSeconds : ℕ) (s : RTState) (newData : List Sample),
      ∀ rr ∈ (addData sampleRate bufferSeconds s newData).1.rrIntervals,
        (0.3 : ℚ) < rr ∧ rr < 2) := by
  have hcm : ∀ peaks : List Peak, ∀ rr ∈ (calculateMetrics peaks).rrIntervals,
      (0.3 : ℚ) < rr ∧ rr < 2 := by
    intro peaks rr h
    rw [calculateMetrics_rrIntervals] at h
    exact mem_rrIntervalsOf h
  have hzero : ∀ peaks : List Peak, (calculateMetrics peaks).rrIntervals = [] →
      (calculateMetrics peaks).instantHR = 0 ∧ (calculateMetrics peaks).avgHR = 0 := by
    intro peaks h
    rw [calculateMetrics_rrIntervals] at h
    rw [calculateMetrics_of_empty h]
    exact ⟨rfl, rfl⟩
  have hdp : ∀ (data : List Sample) (sampleRate : ℚ),
      (detectPeaks data sampleRate).rrIntervals =
        rrIntervalsOf (detectPeaks data sampleRate).peaks := by
    intro data sampleRate
    unfold detectPeaks
    dsimp only
    split
    · rfl
    · exact calculateMetrics_rrIntervals _
  have hdpr : ∀ (data : List Sample) (sampleRate : ℚ),
      ∀ rr ∈ (detectPeaks data sampleRate).rrIntervals, (0.3 : ℚ) < rr ∧ rr < 2 := by
    intro data sampleRate rr h
    rw [hdp] at h
    exact mem_rrIntervalsOf h
  refine ⟨hcm, hzero, hdp, hdpr, ?_⟩
  intro sampleRate bufferSeconds s newData rr h
  unfold addData at h
  dsimp only at h
  split at h
  · exact hcm _ _ h
  · exact hdpr _ _ _ h

/-- Witness for `rrIntervals_range`: the single RR interval of two peaks
one second apart is in the RR list and inside the open range. -/
theorem rrIntervals_range_witness :
    1 ∈ (calculateMetrics pairPeaks).rrIntervals ∧ ((0.3 : ℚ) < 1 ∧ (1 : ℚ) < 2) :=
  ⟨by with_unfolding_all decide,
   rrIntervals_range.1 pairPeaks 1 (by with_unfolding_all decide)⟩

/-- Bound on `getD` lookups over a pointwise-bounded list. -/
lemma getD_le_of_all {l : List ℚ} {c : ℚ} (hc : 0 ≤ c)
    (h : ∀ v ∈ l, v ≤ c) (i : ℕ) : l.getD i 0 ≤ c := by
  by_cases hi : i < l.length
  · rw [List.getD_eq_getElem _ _ hi]
    exact h _ (List.getElem_mem hi)
  · rw [List.getD_eq_default _ _ (by omega)]
    exact hc

/-- The remap fold never reports a value above the pointwise bound of
the original signal. -/
lemma remap_fold_le {orig : List ℚ} (h : ∀ v ∈ orig, v ≤ 0.4)
    (js : List ℕ) (init : ℕ × ℚ) (hinit : init.2 ≤ 0.4) :
    (js.foldl
      (fun (mv : ℕ × ℚ) j =>
        if j < orig.length ∧ mv.2 < orig.getD j 0 then (j, orig.getD j 0) else mv)
      init).2 ≤ 0.4 := by
  induction js generalizing init with
  | nil => exact hinit
  | cons a l ih =>
    apply ih
    dsimp only
    split
    · exact getD_le_of_all (by norm_num) h a
    · exact hinit

/-- One scan step keeps the peak list empty when the original signal
never exceeds the 0.4 amplitude gate. -/
lemma fpStep_peaks_nil (proc orig times : List ℚ) (refr : ℤ) (minTh : ℚ)
    (h : ∀ v ∈ orig, v ≤ 0.4) (s : FPState) (i : ℕ) (hs : s.peaks = []) :
    (fpStep proc orig times refr minTh s i).peaks = [] := by
  unfold fpStep
  dsimp only
  split
  · split
    · next hmv =>
      exfalso
      have hb : (remapPeak orig i).2 ≤ 0.4 :=
        remap_fold_le h _ (i, orig.getD i 0) (getD_le_of_all (by norm_num) h i)
      exact absurd hmv (not_lt.mpr hb)
    · exact hs
  · exact hs

/-- The whole scan reports no peak when the original signal never
exceeds the 0.4 amplitude gate. -/
lemma findPeaks_all_small {originalSignal : List ℚ}
    (h : ∀ v ∈ originalSignal, v ≤ 0.4)
    (processedSignal times : List ℚ) (sampleRate : ℚ) :
    findPeaks processedSignal originalSignal times sampleRate = [] := by
  unfold findPeaks
  dsimp only
  split
  · rfl
  · have H : ∀ (l : List ℕ) (s : FPState), s.peaks = [] →
        (l.foldl (fpStep processedSignal originalSignal times
          (refractoryPeriod sampleRate)
          (0.1 * (sortDesc processedSignal).getD 0 0)) s).peaks = [] := by
      intro l
      induction l with
      | nil => intro s hs; exact hs
      | cons a l ih =>
        intro s hs
        exact ih _ (fpStep_peaks_nil _ _ _ _ _ h s a hs)
    exact H _ _ rfl

/-- C7: if every input value is at most 0.4, `detectPeaks` reports no
peak (and hence all-empty metrics): every candidate fails the amplitude
sanity gate. -/
theorem detectPeaks_low_amplitude (data : List Sample) (sampleRate : ℚ)
    (h : ∀ d ∈ data, d.value ≤ 0.4) :
    detectPeaks data sampleRate =
      { peaks := [], rrIntervals := [], instantHR := 0, avgHR := 0 } := by
  unfold detectPeaks
  dsimp only
  split
  · rfl
  · have hv : ∀ v ∈ data.map Sample.value, v ≤ 0.4 := by
      intro v hvmem
      obtain ⟨d, hd, rfl⟩ := List.mem_map.mp hvmem
      exact h d hd
    rw [findPeaks_all_small hv]
    rfl

/-- Witness for `detectPeaks_low_amplitude` on 5 s of flat 0.01 signal. -/
theorem detectPeaks_low_amplitude_witness :
    (∀ d ∈ constData, d.value ≤ (0.4 : ℚ)) ∧
    detectPeaks constData 250 =
      { peaks := [], rrIntervals := [], instantHR := 0, avgHR := 0 } :=
  ⟨by with_unfolding_all decide,
   detectPeaks_low_amplitude constData 250 (by with_unfolding_all decide)⟩

/-- C1 (amended): the returned peak list is the accumulated state list,
and each `addData` call only ever appends peaks whose time strictly
exceeds the last previously accumulated peak's time. -/
theorem addData_appends_after_last (sampleRate bufferSeconds : ℕ)
    (s : RTState) (newData : List Sample) :
    (addData sampleRate bufferSeconds s newData).1.peaks =
      (addData sampleRate bufferSeconds s newData).2.detectedPeaks ∧
    ∃ l, (addData sampleRate bufferSeconds s newData).2.detectedPeaks =
        (pushTrim sampleRate bufferSeconds s newData).detectedPeaks ++ l ∧
      ∀ p ∈ l,
        (((pushTrim sampleRate bufferSeconds s newData).detectedPeaks.getLast?.map
          Peak.time).getD 0) < p.time := by
  unfold addData
  dsimp only
  split
  · exact ⟨rfl, [], by simp, by simp⟩
  · refine ⟨rfl, _, rfl, ?_⟩
    intro p hp
    exact of_decide_eq_true (List.mem_filter.mp hp).2

/-- Witness for `addData_appends_after_last` at a fresh detector fed 50
samples. -/
theorem addData_appends_after_last_witness :
    (addData 20 5 initialState exStreamData).1.peaks =
      (addData 20 5 initialState exStreamData).2.detectedPeaks ∧
    ∃ l, (addData 20 5 initialState exStreamData).2.detectedPeaks =
        (pushTrim 20 5 initialState exStreamData).detectedPeaks ++ l ∧
      ∀ p ∈ l,
        (((pushTrim 20 5 initialState exStreamData).detectedPeaks.getLast?.map
          Peak.time).getD 0) < p.time :=
  addData_appends_after_last 20 5 initialState exStreamData

/-- C1 counterexample: after a single `addData` call (time-sorted input)
the accumulated list holds two peaks only 10 ms apart, far less than
`refractoryPeriod / sampleRate = 0.25` s. -/
theorem addData_dedup_cex :
    List.Pairwise (· ≤ ·) (exStreamData.map Sample.time) ∧
    (addData 20 5 initialState exStreamData).2.detectedPeaks.map Peak.time
      = [21/1000, 31/1000] ∧
    ((31 : ℚ)/1000 - 21/1000) < ((refractoryPeriod (20 : ℚ) : ℚ) / 20) := by
  refine ⟨?_, ?_, ?_⟩ <;> with_unfolding_all decide

/-- C2 counterexample: a single `detectPeaks` call whose two consecutive
peaks are 10 ms apart, violating the claimed 0.25 s separation. -/
theorem detectPeaks_refractory_cex :
    (detectPeaks exStreamData 20).peaks.map Peak.time = [21/1000, 31/1000] ∧
    ¬ ((0.25 : ℚ) ≤ (31 : ℚ)/1000 - 21/1000) := by
  refine ⟨?_, ?_⟩ <;> with_unfolding_all decide

/-- C6 counterexample: with strictly increasing input times, one
`addData` call accumulates peaks in reversed time order (the second
candidate's remap window reaches an equal maximum to the left of the
first reported peak). -/
theorem addData_monotone_cex :
    List.Pairwise (· ≤ ·) (exMonoData.map Sample.time) ∧
    (addData 20 5 initialState exMonoData).2.detectedPeaks.map Peak.time
      = [23/1000, 21/1000] ∧
    ¬ List.Pairwise (fun p q : Peak => p.time ≤ q.time)
      (addData 20 5 initialState exMonoData).2.detectedPeaks := by
  refine ⟨?_, ?_, ?_⟩ <;> with_unfolding_all decide

/-- Pointwise-successful `optMap` computes the plain map. -/
lemma optMap_eq_some_map {α β : Type} (f : α → Option β) (g : α → β)
    (l : List α) (h : ∀ a ∈ l, f a = some (g a)) :
    optMap f l = some (l.map g) := by
  induction l with
  | nil => rfl
  | cons a l ih =>
    unfold optMap
    rw [h a (by simp), ih (fun x hx => h x (by simp [hx]))]
    rfl

/-- Length of `intRange`. -/
lemma intRange_length (lo hi : ℤ) :
    (intRange lo hi).length = (hi + 1 - lo).toNat := by
  unfold intRange
  rw [List.length_map, List.length_range]

/-- `divQ?` on a nonzero divisor. -/
lemma divQ?_eq_some {a b : ℚ} (h : b ≠ 0) : divQ? a b = some (a / b) :=
  if_neg h

/-- Integer lower bounds transfer through `ratFloor`. -/
lemma le_ratFloor {n : ℤ} {q : ℚ} (h : (n : ℚ) ≤ q) : n ≤ ratFloor q := by
  rw [ratFloor_eq_floor]
  exact Int.le_floor.mpr h

/-- The band-pass window never degenerates for a nonnegative half-width,
so the checked band pass computes the plain one. -/
lemma bandpassFilterChecked_eq (data : List ℚ) (sampleRate : ℚ)
    (hw : 0 ≤ ratFloor (sampleRate / 15)) :
    bandpassFilterChecked data sampleRate = some (bandpassFilter data sampleRate) := by
  unfold bandpassFilterChecked bandpassFilter
  dsimp only
  apply optMap_eq_some_map
  intro i hi
  have hi' : i < data.length := List.mem_range.mp hi
  have hlohi : max 0 ((i : ℤ) - ratFloor (sampleRate / 15))
      ≤ min ((data.length : ℤ) - 1) ((i : ℤ) + ratFloor (sampleRate / 15)) := by
    apply max_le
    · apply le_min <;> omega
    · apply le_min <;> omega
  have hlen : 0 < (intRange (max 0 ((i : ℤ) - ratFloor (sampleRate / 15)))
      (min ((data.length : ℤ) - 1) ((i : ℤ) + ratFloor (sampleRate / 15)))).length := by
    rw [intRange_length]
    omega
  rw [divQ?_eq_some (by exact_mod_cast Nat.pos_iff_ne_zero.mp hlen)]
  rfl

/-- The checked derivative computes the plain one (divisor 8). -/
lemma derivativeChecked_eq (data : List ℚ) :
    derivativeChecked data = some (derivative data) := by
  unfold derivativeChecked derivative
  apply optMap_eq_some_map
  intro k _
  rw [divQ?_eq_some (by norm_num)]

/-- The integration window never degenerates for a positive width, so
the checked integration computes the plain one. -/
lemma movingWindowIntegrationChecked_eq (data : List ℚ) (windowSize : ℤ)
    (hw : 1 ≤ windowSize) :
    movingWindowIntegrationChecked data windowSize =
      some (movingWindowIntegration data windowSize) := by
  unfold movingWindowIntegrationChecked movingWindowIntegration
  apply optMap_eq_some_map
  intro i _
  have hstart : max 0 ((i : ℤ) - windowSize + 1) ≤ (i : ℤ) := by
    apply max_le <;> omega
  have hpos : (0 : ℤ) < (i : ℤ) - max 0 ((i : ℤ) - windowSize + 1) + 1 := by omega
  rw [divQ?_eq_some (by exact_mod_cast hpos.ne')]

/-- The last element (with default) of a nonempty list is a member. -/
lemma getLastD_mem {l : List ℚ} (h : l ≠ []) (d : ℚ) : l.getLastD d ∈ l := by
  rw [List.getLastD_eq_getLast?, List.getLast?_eq_getLast l h]
  simp only [Option.getD_some]
  exact List.getLast_mem h

/-- The metrics divisions are guarded: the checked metrics always
compute the plain ones. -/
lemma calculateMetricsChecked_eq (peaks : List Peak) :
    calculateMetricsChecked peaks = some (calculateMetrics peaks) := by
  unfold calculateMetricsChecked calculateMetrics
  dsimp only
  split
  · rfl
  · next hne =>
    have h1 : rrIntervalsOf peaks ≠ [] := by
      intro h
      exact hne (List.isEmpty_iff.mpr h)
    have hlast : (0.3 : ℚ) < (rrIntervalsOf peaks).getLastD 0 :=
      (mem_rrIntervalsOf (getLastD_mem h1 0)).1
    have hlen : ((rrIntervalsOf peaks).length : ℚ) ≠ 0 := by
      have := List.length_pos.mpr h1
      exact_mod_cast this.ne'
    have hsum : 0 < (rrIntervalsOf peaks).sum :=
      List.sum_pos _ (fun x hx => lt_trans (by norm_num) (mem_rrIntervalsOf hx).1) h1
    have havg : ((rrIntervalsOf peaks).sum / ((rrIntervalsOf peaks).length : ℚ)) ≠ 0 := by
      have hlenpos : (0 : ℚ) < ((rrIntervalsOf peaks).length : ℚ) := by
        have := List.length_pos.mpr h1
        exact_mod_cast this
      exact (div_pos hsum hlenpos).ne'
    rw [divQ?_eq_some (lt_trans (by norm_num : (0:ℚ) < 0.3) hlast).ne']
    simp only [Option.some_bind]
    rw [divQ?_eq_some hlen]
    simp only [Option.some_bind]
    rw [divQ?_eq_some havg]
    rfl

/-- The checked batch pipeline computes the plain one for sane sample
rates (≥ 15 Hz; the default is 250 Hz). -/
lemma detectPeaksChecked_eq (data : List Sample) (sampleRate : ℚ)
    (h : 15 ≤ sampleRate) :
    detectPeaksChecked data sampleRate = some (detectPeaks data sampleRate) := by
  have hw : 0 ≤ ratFloor (sampleRate / 15) := by
    apply le_ratFloor
    rw [le_div_iff₀ (by norm_num : (0:ℚ) < 15)]
    push_cast
    linarith
  have hW : 1 ≤ ratFloor ((0.15 : ℚ) * sampleRate) := by
    apply le_ratFloor
    push_cast
    nlinarith
  unfold detectPeaksChecked detectPeaks
  dsimp only
  split
  · rfl
  · rw [bandpassFilterChecked_eq _ _ hw, Option.some_bind,
        derivativeChecked_eq, Option.some_bind,
        movingWindowIntegrationChecked_eq _ _ hW, Option.some_bind,
        calculateMetricsChecked_eq]
    rfl

/-- The checked streaming call computes the plain one for sane sample
rates. -/
lemma addDataChecked_eq (sampleRate bufferSeconds : ℕ) (s : RTState)
    (newData : List Sample) (h : 15 ≤ sampleRate) :
    addDataChecked sampleRate bufferSeconds s newData =
      some (addData sampleRate bufferSeconds s newData) := by
  unfold addDataChecked addData
  dsimp only
  split
  · rw [calculateMetricsChecked_eq]
    rfl
  · rw [detectPeaksChecked_eq _ _ (by exact_mod_cast h)]
    rfl

/-- C8: no division in the pipeline divides by zero: the checked
variants of `calculateMetrics`, `detectPeaks` and `addData` (which fail
on any zero divisor where JS would produce NaN) always succeed and
compute the plain results; `reset` and `pushTrim` contain no division. -/
theorem core_no_division_by_zero :
    (∀ peaks : List Peak,
      calculateMetricsChecked peaks = some (calculateMetrics peaks)) ∧
    (∀ (data : List Sample) (sampleRate : ℚ), 15 ≤ sampleRate →
      detectPeaksChecked data sampleRate = some (detectPeaks data sampleRate)) ∧
    (∀ (sampleRate bufferSeconds : ℕ) (s : RTState) (newData : List Sample),
      15 ≤ sampleRate →
      addDataChecked sampleRate bufferSeconds s newData =
        some (addData sampleRate bufferSeconds s newData)) :=
  ⟨calculateMetricsChecked_eq,
   detectPeaksChecked_eq,
   addDataChecked_eq⟩

/-- Witness for `core_no_division_by_zero` at the default 250 Hz
configuration on concrete data. -/
theorem core_no_division_by_zero_witness :
    detectPeaksChecked constData 250 = some (detectPeaks constData 250) ∧
    addDataChecked 250 5 initialState constData =
      some (addData 250 5 initialState constData) :=
  ⟨core_no_division_by_zero.2.1 constData 250 (by norm_num),
   core_no_division_by_zero.2.2 250 5 initialState constData (by norm_num)⟩

/-- The remap search stays in `[i - 8, i + 8]`, reports the looked-up
value of its reported index, and reports an in-range index unless it
returns the starting index `i` itself. -/
lemma remapPeak_spec (orig : List ℚ) (i : ℕ) :
    (i : ℤ) - 8 ≤ ((remapPeak orig i).1 : ℤ) ∧
    ((remapPeak orig i).1 : ℤ) ≤ (i : ℤ) + 8 ∧
    (remapPeak orig i).2 = orig.getD (remapPeak orig i).1 0 ∧
    ((remapPeak orig i).1 < orig.length ∨ (remapPeak orig i).1 = i) := by
  unfold remapPeak
  dsimp only
  have hjs : ∀ j ∈ List.range' (i - 8)
      ((min ((orig.length : ℤ) - 1) ((i : ℤ) + 8) + 1 - ((i - 8 : ℕ) : ℤ)).toNat),
      ((i : ℤ) - 8 ≤ (j : ℤ) ∧ (j : ℤ) ≤ (i : ℤ) + 8) ∧ j < orig.length := by
    intro j hj
    obtain ⟨h1, h2⟩ := List.mem_range'_1.mp hj
    have hmin1 : min ((orig.length : ℤ) - 1) ((i : ℤ) + 8) ≤ (orig.length : ℤ) - 1 :=
      min_le_left _ _
    have hmin2 : min ((orig.length : ℤ) - 1) ((i : ℤ) + 8) ≤ (i : ℤ) + 8 :=
      min_le_right _ _
    have hc := Int.ofNat_toNat
      (min ((orig.length : ℤ) - 1) ((i : ℤ) + 8) + 1 - ((i - 8 : ℕ) : ℤ))
    omega
  have H : ∀ (js : List ℕ)
      (hjs : ∀ j ∈ js, ((i : ℤ) - 8 ≤ (j : ℤ) ∧ (j : ℤ) ≤ (i : ℤ) + 8) ∧ j < orig.length)
      (init : ℕ × ℚ)
      (hinit : (i : ℤ) - 8 ≤ (init.1 : ℤ) ∧ ((init.1 : ℤ)) ≤ (i : ℤ) + 8 ∧
        init.2 = orig.getD init.1 0 ∧ (init.1 < orig.length ∨ init.1 = i)),
      (i : ℤ) - 8 ≤ ((js.foldl
        (fun (mv : ℕ × ℚ) j =>
          if j < orig.length ∧ mv.2 < orig.getD j 0 then (j, orig.getD j 0) else mv)
        init).1 : ℤ) ∧
      (((js.foldl
        (fun (mv : ℕ × ℚ) j =>
          if j < orig.length ∧ mv.2 < orig.getD j 0 then (j, orig.getD j 0) else mv)
        init).1 : ℤ)) ≤ (i : ℤ) + 8 ∧
      (js.foldl
        (fun (mv : ℕ × ℚ) j =>
          if j < orig.length ∧ mv.2 < orig.getD j 0 then (j, orig.getD j 0) else mv)
        init).2 = orig.getD (js.foldl
        (fun (mv : ℕ × ℚ) j =>
          if j < orig.length ∧ mv.2 < orig.getD j 0 then (j, orig.getD j 0) else mv)
        init).1 0 ∧
      ((js.foldl
        (fun (mv : ℕ × ℚ) j =>
          if j < orig.length ∧ mv.2 < orig.getD j 0 then (j, orig.getD j 0) else mv)
        init).1 < orig.length ∨ (js.foldl
        (fun (mv : ℕ × ℚ) j =>
          if j < orig.length ∧ mv.2 < orig.getD j 0 then (j, orig.getD j 0) else mv)
        init).1 = i) := by
    intro js
    induction js with
    | nil => intro _ init hinit; exact hinit
    | cons a l ih =>
      intro hjs init hinit
      rw [List.foldl_cons]
      apply ih (fun j hj => hjs j (by simp [hj]))
      dsimp only
      split
      · next hcondj =>
        obtain ⟨⟨ha1, ha2⟩, halen⟩ := hjs a (by simp)
        exact ⟨ha1, ha2, rfl, Or.inl halen⟩
      · exact hinit
  exact H _ (fun j hj => hjs j hj) (i, orig.getD i 0)
    ⟨by omega, by omega, rfl, Or.inr rfl⟩

/-- One scan step preserves the `findPeaks` invariant. -/
lemma fpStep_inv (proc orig times : List ℚ) (refr : ℤ) (minTh : ℚ)
    (s : FPState) (i : ℕ) (h : fpInv orig times refr s) :
    fpInv orig times refr (fpStep proc orig times refr minTh s i) := by
  unfold fpStep
  dsimp only
  split
  · next hcond =>
    obtain ⟨_, _, hrefr⟩ := hcond
    split
    · next hamp =>
      obtain ⟨hm1, hm2, hmval, hmrange⟩ := remapPeak_spec orig i
      have hmlen : (remapPeak orig i).1 < orig.length := by
        rcases hmrange with h' | h'
        · exact h'
        · by_contra hno
          rw [hmval, List.getD_eq_default _ _ (by omega)] at hamp
          norm_num at hamp
      obtain ⟨hchain, hlastlink, hmem⟩ := h
      refine ⟨?_, ?_, ?_⟩
      · rw [List.chain'_append]
        refine ⟨hchain, List.chain'_singleton _, ?_⟩
        intro x hx y hy
        simp only [List.head?_cons, Option.mem_def, Option.some.injEq] at hy
        subst hy
        have hxlast := hlastlink x hx
        unfold peakGap
        dsimp only
        omega
      · intro lp hlp
        rw [List.getLast?_concat] at hlp
        injection hlp with hlp
        subst hlp
        dsimp only
        omega
      · intro p hp
        rcases List.mem_append.mp hp with h' | h'
        · exact hmem p h'
        · simp only [List.mem_singleton] at h'
          subst h'
          exact ⟨hmlen, rfl⟩
    · exact h
  · exact h

/-- The scan invariant holds of the final fold state and hence of the
peaks returned by `findPeaks`. -/
lemma findPeaks_inv (proc orig times : List ℚ) (sampleRate : ℚ) :
    List.Chain' (peakGap (refractoryPeriod sampleRate))
      (findPeaks proc orig times sampleRate) ∧
    ∀ p ∈ findPeaks proc orig times sampleRate,
      p.index < orig.length ∧ p.time = times.getD p.index 0 := by
  unfold findPeaks
  dsimp only
  split
  · exact ⟨List.chain'_nil, by intro p hp; cases hp⟩
  · have H : ∀ (l : List ℕ) (s : FPState), fpInv orig times (refractoryPeriod sampleRate) s →
        fpInv orig times (refractoryPeriod sampleRate)
          (l.foldl (fpStep proc orig times (refractoryPeriod sampleRate)
            (0.1 * (sortDesc proc).getD 0 0)) s) := by
      intro l
      induction l with
      | nil => intro s hs; exact hs
      | cons a l ih =>
        intro s hs
        exact ih _ (fpStep_inv _ _ _ _ _ _ _ hs)
    have hinit : fpInv orig times (refractoryPeriod sampleRate)
        { peaks := [], lastPeakIndex := -(refractoryPeriod sampleRate)
          threshold := max (0.4 * (sortDesc proc).getD 0 0)
            (0.5 * (sortDesc proc).getD
              (ratFloor (((sortDesc proc).length : ℚ) * 0.05)).toNat 0) } := by
      refine ⟨List.chain'_nil, ?_, ?_⟩
      · intro lp hlp
        simp at hlp
      · intro p hp
        cases hp
    have := H (List.range' 2 (proc.length - 4)) _ hinit
    exact ⟨this.1, this.2.2⟩

/-- C2 (amended): in any single `detectPeaks` result, consecutive
peaks' reported indices are at least `refractoryPeriod - 16` samples
apart (accepted scan indices are `refractoryPeriod` apart and the ±8
remap can shrink the reported separation by at most 16); the claimed
0.25-second gap between the reported `time` fields does not hold, since
times are caller-supplied values looked up at the remapped indices. -/
theorem detectPeaks_index_gap (data : List Sample) (sampleRate : ℚ) :
    List.Chain' (peakGap (refractoryPeriod sampleRate))
      (detectPeaks data sampleRate).peaks := by
  unfold detectPeaks
  dsimp only
  split
  · exact List.chain'_nil
  · exact (findPeaks_inv _ _ _ _).1

/-- With a refractory period of at least 17 samples, reported peak
indices are strictly increasing within one `findPeaks` run. -/
lemma chain_index_lt {refr : ℤ} (h17 : 17 ≤ refr) {l : List Peak}
    (h : List.Chain' (peakGap refr) l) :
    List.Pairwise (fun p q : Peak => p.index < q.index) l := by
  haveI : IsTrans Peak (fun p q : Peak => p.index < q.index) :=
    ⟨fun _ _ _ h1 h2 => Nat.lt_trans h1 h2⟩
  rw [← List.chain'_iff_pairwise]
  refine h.imp ?_
  intro p q hpq
  unfold peakGap at hpq
  omega

/-- Lookups at increasing in-range indices of a sorted list are
monotone. -/
lemma pairwise_getD_mono {l : List ℚ} (h : List.Pairwise (· ≤ ·) l)
    {a b : ℕ} (hab : a ≤ b) (hb : b < l.length) :
    l.getD a 0 ≤ l.getD b 0 := by
  rcases eq_or_lt_of_le hab with rfl | hlt
  · exact le_refl _
  · rw [List.getD_eq_getElem _ _ (by omega), List.getD_eq_getElem _ _ hb]
    exact List.pairwise_iff_getElem.mp h a b (by omega) hb hlt

/-- With time-sorted input and refractory ≥ 17 samples, the peaks of a
single `detectPeaks` run are time-sorted. -/
lemma detectPeaks_time_sorted (data : List Sample) (sampleRate : ℚ)
    (h17 : 17 ≤ refractoryPeriod sampleRate)
    (hsorted : List.Pairwise (· ≤ ·) (data.map Sample.time)) :
    List.Pairwise (fun p q : Peak => p.time ≤ q.time)
      (detectPeaks data sampleRate).peaks := by
  unfold detectPeaks
  dsimp only
  split
  · exact List.Pairwise.nil
  · obtain ⟨hchain, hmem⟩ := findPeaks_inv
      (movingWindowIntegration (squaring (derivative
        (bandpassFilter (data.map Sample.value) sampleRate)))
        (ratFloor ((0.15 : ℚ) * sampleRate)))
      (data.map Sample.value) (data.map Sample.time) sampleRate
    have hidx := chain_index_lt h17 hchain
    refine hidx.imp_of_mem ?_
    intro p q hp hq hlt
    obtain ⟨hplen, hptime⟩ := hmem p hp
    obtain ⟨hqlen, hqtime⟩ := hmem q hq
    rw [hptime, hqtime]
    exact pairwise_getD_mono hsorted (le_of_lt hlt)
      (by rw [List.length_map]; rw [List.length_map] at hqlen; exact hqlen)

/-- Every member of a time-sorted peak list is bounded by the
`lastPeakTime` expression of `addData`. -/
lemma le_getLast_time {l : List Peak}
    (h : List.Pairwise (fun p q : Peak => p.time ≤ q.time) l)
    {p : Peak} (hp : p ∈ l) :
    p.time ≤ ((l.getLast?.map Peak.time).getD 0) := by
  induction l with
  | nil => cases hp
  | cons a l ih =>
    cases l with
    | nil =>
      simp only [List.mem_singleton] at hp
      subst hp
      simp [List.getLast?_singleton]
    | cons b l' =>
      rw [List.getLast?_cons_cons]
      rcases List.mem_cons.mp hp with h' | h'
      · subst h'
        have hlast : (b :: l').getLast (by simp) ∈ b :: l' := List.getLast_mem _
        have hle := (List.pairwise_cons.mp h).1 _ hlast
        rw [List.getLast?_eq_getLast _ (by simp)]
        simpa using hle
      · exact ih (List.pairwise_cons.mp h).2 h'

/-- One `addData` call preserves time-sortedness of the accumulated
peaks (given sorted buffered-plus-new samples and refractory ≥ 17),
and leaves the buffer a suffix of the buffered-plus-new samples. -/
lemma addData_preserves_sorted (sampleRate bufferSeconds : ℕ) (s : RTState)
    (c : List Sample) (h17 : 17 ≤ refractoryPeriod (sampleRate : ℚ))
    (hbuf : List.Pairwise (· ≤ ·) ((s.buffer ++ c).map Sample.time))
    (hpk : List.Pairwise (fun p q : Peak => p.time ≤ q.time) s.detectedPeaks) :
    List.Pairwise (fun p q : Peak => p.time ≤ q.time)
      ((addData sampleRate bufferSeconds s c).2.detectedPeaks) ∧
    ∃ k, (addData sampleRate bufferSeconds s c).2.buffer = (s.buffer ++ c).drop k := by
  have hs1 : (∃ k, (pushTrim sampleRate bufferSeconds s c).buffer = (s.buffer ++ c).drop k) ∧
      List.Pairwise (fun p q : Peak => p.time ≤ q.time)
        (pushTrim sampleRate bufferSeconds s c).detectedPeaks := by
    unfold pushTrim
    dsimp only
    split
    · exact ⟨⟨_, rfl⟩, hpk.sublist (List.filter_sublist _)⟩
    · exact ⟨⟨0, (List.drop_zero _).symm⟩, hpk⟩
  obtain ⟨⟨k, hk⟩, hs1pk⟩ := hs1
  have hs1buf : List.Pairwise (· ≤ ·)
      ((pushTrim sampleRate bufferSeconds s c).buffer.map Sample.time) := by
    rw [hk, List.map_drop]
    exact hbuf.sublist (List.drop_sublist _ _)
  unfold addData
  dsimp only
  split
  · exact ⟨hs1pk, k, hk⟩
  · constructor
    · rw [List.pairwise_append]
      have hbatch := detectPeaks_time_sorted
        (pushTrim sampleRate bufferSeconds s c).buffer (sampleRate : ℚ) h17 hs1buf
      refine ⟨hs1pk, hbatch.sublist (List.filter_sublist _), ?_⟩
      intro a ha b hb
      have hb' := of_decide_eq_true (List.mem_filter.mp hb).2
      exact le_of_lt (lt_of_le_of_lt (le_getLast_time hs1pk ha) hb')
    · exact ⟨k, hk⟩

/-- Folding any chunk sequence through `addData` keeps the accumulated
peaks time-sorted, provided the concatenated stream is time-sorted. -/
lemma runAddData_sorted_aux (sampleRate bufferSeconds : ℕ)
    (h17 : 17 ≤ refractoryPeriod (sampleRate : ℚ)) :
    ∀ (chunks : List (List Sample)) (s : RTState),
      List.Pairwise (· ≤ ·) ((s.buffer ++ chunks.flatten).map Sample.time) →
      List.Pairwise (fun p q : Peak => p.time ≤ q.time) s.detectedPeaks →
      List.Pairwise (fun p q : Peak => p.time ≤ q.time)
        ((chunks.foldl (fun st c => (addData sampleRate bufferSeconds st c).2)
          s).detectedPeaks) := by
  intro chunks
  induction chunks with
  | nil => intro s _ hpk; exact hpk
  | cons c rest ih =>
    intro s hbuf hpk
    rw [List.foldl_cons]
    have hbuf' : List.Pairwise (· ≤ ·)
        (((s.buffer ++ c) ++ rest.flatten).map Sample.time) := by
      rw [List.flatten_cons, ← List.append_assoc] at hbuf
      exact hbuf
    have hbc : List.Pairwise (· ≤ ·) ((s.buffer ++ c).map Sample.time) := by
      rw [List.map_append] at hbuf'
      exact hbuf'.sublist (List.sublist_append_left _ _)
    obtain ⟨hpk', k, hk⟩ :=
      addData_preserves_sorted sampleRate bufferSeconds s c h17 hbc hpk
    apply ih
    · rw [hk, List.map_append, List.map_drop]
      rw [List.map_append] at hbuf'
      exact hbuf'.sublist ((List.drop_sublist _ _).append (List.Sublist.refl _))
    · exact hpk'

/-- C6 (amended): provided samples are appended in non-decreasing time
order AND the refractory period is at least 17 samples (true for any
`sampleRate ≥ 68`, in particular the default 250 Hz; it rules the ±8
remap slack out), `detectedPeaks` is time-ordered after every sequence
of `addData` calls; at lower sample rates the remap can reorder times. -/
theorem runAddData_time_sorted (sampleRate bufferSeconds : ℕ)
    (chunks : List (List Sample))
    (h17 : 17 ≤ refractoryPeriod (sampleRate : ℚ))
    (hsorted : List.Pairwise (· ≤ ·) (chunks.flatten.map Sample.time)) :
    List.Pairwise (fun p q : Peak => p.time ≤ q.time)
      (runAddData sampleRate bufferSeconds chunks).detectedPeaks := by
  unfold runAddData
  exact runAddData_sorted_aux sampleRate bufferSeconds h17 chunks initialState
    (by simpa using hsorted) List.Pairwise.nil

/-- Witness for `runAddData_time_sorted` at the default configuration
on one concrete 50-sample chunk. -/
theorem runAddData_time_sorted_witness :
    List.Pairwise (fun p q : Peak => p.time ≤ q.time)
      (runAddData 250 5 [constData]).detectedPeaks :=
  runAddData_time_sorted 250 5 [constData]
    (by with_unfolding_all decide)
    (by with_unfolding_all decide)
